import Mathlib

/-!
# synctv: playback clock (`room/current.go`) and room registry (`internal/op/rooms.go`)

A shallow embedding of the Go sources and the properties proved about it; the bootstrap
loader (`internal/bootstrap/room.go`) and the update check of `internal/version/version.go`
are embedded as well.

Conventions of the embedding

* `float64` values (`Seek`, `Rate`, `timeDiff`) are rationals: every property below is a
  statement in exact arithmetic.
* An instant (`time.Time`) is an integer count of nanoseconds on the process clock and a
  `time.Duration` is an integer count of nanoseconds; durations are taken inside the `int64`
  range, where `Time.Sub` does not saturate.
* A method with a pointer receiver takes the receiver's value and returns the new value next
  to its result.  Every call of `time.Now()` is an explicit argument, so `updateSeek`, which
  reads the clock twice, takes two readings.
* The locks are not part of the embedding: every method body is one atomic step.
-/

set_option linter.dupNamespace false

namespace time

/-- An instant: nanoseconds on the process clock (`time.Time`). -/
abbrev Time := Int

/-- An elapsed time in nanoseconds (`time.Duration`). -/
abbrev Duration := Int

/-- The constant `time.Second`, in nanoseconds. -/
def Second : Duration := 1000000000

/-- The method `Duration.Seconds` of the standard library: whole seconds plus the fractional
nanoseconds, `float64(d / Second) + float64(d % Second) / 1e9`, Go's `/` and `%` truncating
towards zero. -/
def Seconds (d : Duration) : ℚ :=
  ((d.tdiv Second : Int) : ℚ) + ((d.tmod Second : Int) : ℚ) / 1000000000

/-- The function `time.Since(t)`, which is `time.Now().Sub(t)`; `now` is the clock reading it
takes. -/
def Since (now t : Time) : Duration := now - t

end time

namespace room

/-- The struct `Status` of `room/current.go`. -/
structure Status where
  Seek : ℚ
  Rate : ℚ
  Playing : Bool
  lastUpdateTime : time.Time
  deriving DecidableEq, Repr

/-- The struct `Current` of `room/current.go`, without its lock.  The type `MovieInfo` is
declared outside the embedded sources and is a parameter. -/
structure Current (MovieInfo : Type) where
  movie : MovieInfo
  status : Status
  deriving DecidableEq, Repr

/-- The constructor `newStatus`; `now` is its reading of `time.Now()`.  `Playing` takes Go's
zero value `false`. -/
def newStatus (now : time.Time) : Status :=
  { Seek := 0, Rate := 1, Playing := false, lastUpdateTime := now }

/-- The constructor `newCurrent`; the movie is the zero value `MovieInfo{}`. -/
def newCurrent {MovieInfo : Type} [Inhabited MovieInfo] (now : time.Time) : Current MovieInfo :=
  { movie := default, status := newStatus now }

namespace Current

variable {MovieInfo : Type}

/-- The method `Current.Movie`. -/
def Movie (c : Current MovieInfo) : MovieInfo := c.movie

/-- The method `Current.SetMovie`: stores the movie and sets `Seek` to 0.  It does not read the
clock and does not assign `lastUpdateTime`. -/
def SetMovie (c : Current MovieInfo) (movie : MovieInfo) : Current MovieInfo :=
  { c with movie := movie, status := { c.status with Seek := 0 } }

/-- The method `Current.updateSeek`.  `since` is the clock reading taken inside `time.Since`
and `now` the reading of the following `time.Now()`. -/
def updateSeek (c : Current MovieInfo) (since now : time.Time) : Current MovieInfo :=
  let status1 : Status :=
    if c.status.Playing then
      { c.status with
        Seek := c.status.Seek
          + time.Seconds (time.Since since c.status.lastUpdateTime) * c.status.Rate }
    else c.status
  { c with status := { status1 with lastUpdateTime := now } }

/-- The method `Current.Status`: `updateSeek`, then the stored status is returned. -/
def Status (c : Current MovieInfo) (since now : time.Time) : Current MovieInfo × room.Status :=
  let c1 := updateSeek c since now
  (c1, c1.status)

/-- A `Status()` call that happens at the single instant `t`: both clock readings are `t`. -/
def StatusAt (c : Current MovieInfo) (t : time.Time) : Current MovieInfo × room.Status :=
  Status c t t

/-- The method `Current.SetStatus`; `now` is its reading of `time.Now()`. -/
def SetStatus (c : Current MovieInfo) (now : time.Time) (playing : Bool)
    (seek rate timeDiff : ℚ) : Current MovieInfo × room.Status :=
  let s1 : room.Status := { c.status with Playing := playing }
  let s2 : room.Status := { s1 with Rate := rate }
  let s3 : room.Status :=
    if playing then { s2 with Seek := seek + (timeDiff * rate) }
    else { s2 with Seek := seek }
  let s4 : room.Status := { s3 with lastUpdateTime := now }
  ({ c with status := s4 }, s4)

/-- The method `Current.SetSeekRate`; `now` is its reading of `time.Now()`. -/
def SetSeekRate (c : Current MovieInfo) (now : time.Time)
    (seek rate timeDiff : ℚ) : Current MovieInfo × room.Status :=
  let s1 : room.Status :=
    if c.status.Playing then { c.status with Seek := seek + (timeDiff * rate) }
    else { c.status with Seek := seek }
  let s2 : room.Status := { s1 with Rate := rate }
  let s3 : room.Status := { s2 with lastUpdateTime := now }
  ({ c with status := s3 }, s3)

/-- A run of `Status()` calls at the instants `ts`, in order: the final state and the
snapshots returned, oldest first. -/
def statusReads (c : Current MovieInfo) : List time.Time → Current MovieInfo × List room.Status
  | [] => (c, [])
  | t :: ts =>
    let r := StatusAt c t
    let rest := statusReads r.1 ts
    (rest.1, r.2 :: rest.2)

end Current

end room

namespace crc32

/-- One byte, an element of a Go `[]byte`. -/
abbrev Byte := Fin 256

/-- The reversed IEEE polynomial, the constant `crc32.IEEE` of the standard library. -/
def IEEE : Nat := 0xedb88320

/-- One bit of the table generation of `hash/crc32`: shift right, and fold the polynomial in
when the bit shifted out is set. -/
def shift1 (crc : Nat) : Nat :=
  if crc % 2 = 1 then (crc / 2) ^^^ IEEE else crc / 2

/-- The entry of the IEEE table for the index `i`: eight shifts. -/
def tableEntry (i : Nat) : Nat := shift1^[8] i

/-- One step of the byte loop: `crc = tab[byte(crc) ^ b] ^ (crc >> 8)`. -/
def updateByte (crc : Nat) (b : Byte) : Nat :=
  tableEntry ((crc % 256) ^^^ b.val) ^^^ (crc / 256)

/-- The function `crc32.ChecksumIEEE` of the standard library: the register starts and ends
complemented. -/
def ChecksumIEEE (data : List Byte) : Nat :=
  (data.foldl updateByte 0xffffffff) ^^^ 0xffffffff

end crc32

namespace model

/-- The settings block of a persisted room: the field used by `rooms.go`. -/
structure Setting where
  Hidden : Bool
  deriving DecidableEq, Repr

/-- Modelled from the spec: the struct `model.Room` is declared outside the embedded sources;
this record carries the persisted attributes the spec lists and `rooms.go` uses: identifier,
name, hashed password and settings. -/
structure Room where
  ID : Nat
  Name : String
  HashedPassword : List crc32.Byte
  Setting : Setting
  deriving DecidableEq, Repr

end model

namespace rwmap

/-- The map type `rwmap.RWMap[uint, V]` without its lock: a finite map with distinct keys.
The order of the entries is the order in which `Range` visits them. -/
abbrev RWMap (V : Type) := AList (fun _ : Nat => V)

variable {V : Type}

/-- The method `Load`: the value (Go's zero value, `none`, when absent) and the `ok` flag. -/
def Load (m : RWMap V) (key : Nat) : Option V × Bool :=
  (m.lookup key, (m.lookup key).isSome)

/-- The method `LoadOrStore`: the entry already present and `true`, or else `value` is stored
and returned with `false`. -/
def LoadOrStore (m : RWMap V) (key : Nat) (value : V) : RWMap V × V × Bool :=
  match m.lookup key with
  | some actual => (m, actual, true)
  | none => (m.insert key value, value, false)

/-- The method `LoadAndDelete`: as `Load`, and the entry is removed. -/
def LoadAndDelete (m : RWMap V) (key : Nat) : RWMap V × Option V × Bool :=
  (m.erase key, m.lookup key, (m.lookup key).isSome)

/-- The method `Delete`. -/
def Delete (m : RWMap V) (key : Nat) : RWMap V := m.erase key

/-- The method `Len`. -/
def Len (m : RWMap V) : Nat := m.entries.length

/-- The loop of `Range` over the entries left to visit: `f` is called on each entry until it
returns `false`; `s` is the state the Go closure captures. -/
def rangeLoop {S : Type} (f : Nat → V → S → S × Bool) : List (Sigma fun _ : Nat => V) → S → S
  | [], s => s
  | e :: es, s =>
    let r := f e.1 e.2 s
    if r.2 then rangeLoop f es r.1 else r.1

/-- The method `Range`. -/
def Range {S : Type} (m : RWMap V) (f : Nat → V → S → S × Bool) (s : S) : S :=
  rangeLoop f m.entries s

end rwmap

namespace op

/-- A Go `error` value that is not nil; `Option GoError` is the type `error`, `none` is nil. -/
abbrev GoError := String

/-- A run-time panic of the Go program. -/
inductive Panic where
  | nilPointerDereference
  deriving DecidableEq, Repr

/-- Modelled from the spec: the struct `op.Room` is declared outside the embedded sources; it
aggregates the persisted attributes (the embedded `model.Room`), the version stamp and the
`Current`, the three fields `initRoom` fills.  A `*Room` that is known not to be nil is a
`Room`; one that may be nil is an `Option (Room MovieInfo)` with `none` for nil. -/
structure Room (MovieInfo : Type) where
  Room : model.Room
  version : Nat
  current : room.Current MovieInfo
  deriving DecidableEq, Repr

/-- The persistence collaborator, package `db`, which is outside the embedded sources and is
a parameter: a state `σ` and the fallible calls `rooms.go` makes, each returning the next
state and its result.  `Conf` is the type `db.CreateRoomConfig`. -/
structure DB (σ Conf : Type) where
  CreateRoom : σ → String → String → List Conf → σ × Except GoError model.Room
  GetRoomByID : σ → Nat → σ × Except GoError model.Room
  GetAllRooms : σ → σ × Except GoError (List model.Room)
  HasRoom : σ → Nat → σ × Except GoError Bool
  HasRoomByName : σ → String → σ × Except GoError Bool
  DeleteRoomByID : σ → Nat → σ × Option GoError

/-- The state the package works on: the global `roomCache`, the state of the persistence
collaborator, and the rooms on which `close` has been called, latest first. -/
structure World (MovieInfo σ : Type) where
  roomCache : rwmap.RWMap (Room MovieInfo)
  db : σ
  closed : List (Room MovieInfo)

variable {MovieInfo σ Conf : Type}

/-- Modelled from the spec: the method `Room.close` is outside the embedded sources; it
releases the live state of the room and touches neither the registry nor persistence.  Its
effect here is the record that it ran on `r`. -/
def close (w : World MovieInfo σ) (r : Room MovieInfo) : World MovieInfo σ :=
  { w with closed := r :: w.closed }

/-- The type `RoomConf`, a function that updates the room under construction. -/
abbrev RoomConf (MovieInfo : Type) := Room MovieInfo → Room MovieInfo

/-- The option `WithVersion`: stores `version` in the room. -/
def WithVersion (version : Nat) : RoomConf MovieInfo :=
  fun r => { r with version := version }

/-- The function `initRoom`; its argument `room` is `record` here and `now` is the clock
reading of `newCurrent`.  The result is the returned room and error. -/
def initRoom [Inhabited MovieInfo] (w : World MovieInfo σ) (now : time.Time)
    (record : model.Room) (conf : List (RoomConf MovieInfo)) :
    World MovieInfo σ × Room MovieInfo × Option GoError :=
  let r0 : Room MovieInfo :=
    { Room := record
      version := crc32.ChecksumIEEE record.HashedPassword
      current := room.newCurrent now }
  let r1 := conf.foldl (fun r c => c r) r0
  let res := rwmap.LoadOrStore w.roomCache record.ID r1
  let w1 : World MovieInfo σ := { w with roomCache := res.1 }
  if res.2.2 then (w1, res.2.1, some "room already exists")
  else (w1, res.2.1, none)

/-- The function `LoadRoom`. -/
def LoadRoom [Inhabited MovieInfo] (w : World MovieInfo σ) (now : time.Time)
    (record : model.Room) : World MovieInfo σ × Room MovieInfo × Option GoError :=
  initRoom w now record []

/-- The function `CreateRoom`. -/
def CreateRoom [Inhabited MovieInfo] (D : DB σ Conf) (w : World MovieInfo σ) (now : time.Time)
    (name password : String) (conf : List Conf) :
    World MovieInfo σ × Option (Room MovieInfo) × Option GoError :=
  let res := D.CreateRoom w.db name password conf
  let w1 : World MovieInfo σ := { w with db := res.1 }
  match res.2 with
  | .error err => (w1, none, some err)
  | .ok r =>
    let out := initRoom w1 now r []
    (out.1, some out.2.1, out.2.2)

/-- The function `DeleteRoom`, called on a room that is not nil. -/
def DeleteRoom (D : DB σ Conf) (w : World MovieInfo σ) (room : Room MovieInfo) :
    World MovieInfo σ × Option GoError :=
  let w1 := close w room
  let w2 : World MovieInfo σ := { w1 with roomCache := rwmap.Delete w1.roomCache room.Room.ID }
  let res := D.DeleteRoomByID w2.db room.Room.ID
  ({ w2 with db := res.1 }, res.2)

/-- The function `DeleteRoomByID`.  After `LoadAndDelete` and the guarded `close`, the
argument of the durable delete is `r.ID`, a field read through the pointer `r`, which panics
when `r` is nil. -/
def DeleteRoomByID (D : DB σ Conf) (w : World MovieInfo σ) (id : Nat) :
    Except Panic (World MovieInfo σ × Option GoError) :=
  let res := rwmap.LoadAndDelete w.roomCache id
  let r : Option (Room MovieInfo) := res.2.1
  let ok : Bool := res.2.2
  let w1 : World MovieInfo σ := { w with roomCache := res.1 }
  let afterClose : Except Panic (World MovieInfo σ) :=
    if ok then
      match r with
      | some room => .ok (close w1 room)
      | none => .error Panic.nilPointerDereference
    else .ok w1
  match afterClose with
  | .error p => .error p
  | .ok w2 =>
    match r with
    | none => .error Panic.nilPointerDereference
    | some room =>
      let del := D.DeleteRoomByID w2.db room.Room.ID
      .ok ({ w2 with db := del.1 }, del.2)

/-- The function `GetRoomByID`; `now` is the clock reading of `initRoom` on a miss. -/
def GetRoomByID [Inhabited MovieInfo] (D : DB σ Conf) (w : World MovieInfo σ)
    (now : time.Time) (id : Nat) :
    World MovieInfo σ × Option (Room MovieInfo) × Option GoError :=
  let hit := rwmap.Load w.roomCache id
  if hit.2 then (w, hit.1, none)
  else
    let res := D.GetRoomByID w.db id
    let w1 : World MovieInfo σ := { w with db := res.1 }
    match res.2 with
    | .error err => (w1, none, some err)
    | .ok r =>
      let out := initRoom w1 now r []
      (out.1, some out.2.1, out.2.2)

/-- The function `HasRoom`. -/
def HasRoom (D : DB σ Conf) (w : World MovieInfo σ) (roomID : Nat) :
    World MovieInfo σ × Bool :=
  let hit := rwmap.Load w.roomCache roomID
  if hit.2 then (w, true)
  else
    let res := D.HasRoom w.db roomID
    let w1 : World MovieInfo σ := { w with db := res.1 }
    match res.2 with
    | .error _ => (w1, false)
    | .ok ok => (w1, ok)

/-- The function `HasRoomByName`. -/
def HasRoomByName (D : DB σ Conf) (w : World MovieInfo σ) (name : String) :
    World MovieInfo σ × Bool :=
  let res := D.HasRoomByName w.db name
  let w1 : World MovieInfo σ := { w with db := res.1 }
  match res.2 with
  | .error _ => (w1, false)
  | .ok ok => (w1, ok)

/-- The function `GetAllRooms`.  `make([]*Room, roomCache.Len())` is a slice of `Len` nil
pointers, and the closure appends each visited room behind them. -/
def GetAllRooms (w : World MovieInfo σ) : List (Option (Room MovieInfo)) :=
  let rooms : List (Option (Room MovieInfo)) := List.replicate (rwmap.Len w.roomCache) none
  rwmap.Range w.roomCache (fun _ value rooms => (rooms ++ [some value], true)) rooms

/-- The function `GetAllRoomsWithoutHidden`.  `make([]*Room, 0, roomCache.Len())` is an empty
slice, and the closure appends each visited room that is not hidden. -/
def GetAllRoomsWithoutHidden (w : World MovieInfo σ) : List (Option (Room MovieInfo)) :=
  let rooms : List (Option (Room MovieInfo)) := []
  rwmap.Range w.roomCache
    (fun _ value rooms =>
      if !value.Room.Setting.Hidden then (rooms ++ [some value], true) else (rooms, true))
    rooms

end op

namespace bootstrap

variable {MovieInfo σ Conf : Type}

/-- The loop of `InitRoom` over the records left to load; `clock i` is the clock reading of
the `i`-th `LoadRoom` call and `i` the index of the next one. -/
def loadLoop [Inhabited MovieInfo] (clock : Nat → time.Time) :
    List model.Room → Nat → op.World MovieInfo σ → op.World MovieInfo σ × Option op.GoError
  | [], _, w => (w, none)
  | room :: rest, i, w =>
    let out := op.LoadRoom w (clock i) room
    match out.2.2 with
    | some err => (out.1, some err)
    | none => loadLoop clock rest (i + 1) out.1

/-- The function `InitRoom`: all persisted records are fetched and loaded in order. -/
def InitRoom [Inhabited MovieInfo] (D : op.DB σ Conf) (clock : Nat → time.Time)
    (w : op.World MovieInfo σ) : op.World MovieInfo σ × Option op.GoError :=
  let res := D.GetAllRooms w.db
  let w1 : op.World MovieInfo σ := { w with db := res.1 }
  match res.2 with
  | .error err => (w1, some err)
  | .ok r => loadLoop clock r 0 w1

end bootstrap

/-! ## The version check (`internal/version/version.go`) -/

namespace version

/-- The struct `github.RepositoryRelease` of the GitHub client library: the field read by
`NeedUpdate`, a string pointer. -/
structure RepositoryRelease where
  TagName : Option String
  deriving DecidableEq, Repr

/-- The struct `VersionInfo`, without its client `c`. -/
structure VersionInfo where
  current : String
  latest : Option RepositoryRelease
  dev : Option RepositoryRelease
  baseURL : String
  deriving DecidableEq, Repr

variable {γ : Type}

/-- The method `VersionInfo.Current`. -/
def Current (v : VersionInfo) : String := v.current

end version

/-! ## Runs of calls -/

namespace room

/-- One call on a `Current`, with the instant at which it is performed. -/
inductive Op (MovieInfo : Type) where
  | setMovie (t : time.Time) (movie : MovieInfo)
  | setStatus (t : time.Time) (playing : Bool) (seek rate timeDiff : ℚ)
  | setSeekRate (t : time.Time) (seek rate timeDiff : ℚ)
  | status (t : time.Time)

variable {MovieInfo : Type}

/-- The instant of a call. -/
def Op.instant : Op MovieInfo → time.Time
  | .setMovie t _ => t
  | .setStatus t _ _ _ _ => t
  | .setSeekRate t _ _ _ => t
  | .status t => t

/-- The `Current` after a call. -/
def Op.apply (c : Current MovieInfo) : Op MovieInfo → Current MovieInfo
  | .setMovie _ movie => Current.SetMovie c movie
  | .setStatus t playing seek rate timeDiff => (Current.SetStatus c t playing seek rate timeDiff).1
  | .setSeekRate t seek rate timeDiff => (Current.SetSeekRate c t seek rate timeDiff).1
  | .status t => (Current.StatusAt c t).1

/-- The `Current` after a sequence of calls, performed in order. -/
def runOps (c : Current MovieInfo) (ops : List (Op MovieInfo)) : Current MovieInfo :=
  ops.foldl Op.apply c

/-- The arguments `seek`, `rate` and `timeDiff` of a call are not negative. -/
def Op.argsNonneg : Op MovieInfo → Prop
  | .setMovie _ _ => True
  | .setStatus _ _ seek rate timeDiff => 0 ≤ seek ∧ 0 ≤ rate ∧ 0 ≤ timeDiff
  | .setSeekRate _ seek rate timeDiff => 0 ≤ seek ∧ 0 ≤ rate ∧ 0 ≤ timeDiff
  | .status _ => True

end room

namespace op

variable {MovieInfo σ Conf : Type}

/-- A run of `LoadRoom` calls that take effect one after the other, each with its own clock
reading and record: the final state and what each call returned, in the order of taking
effect. -/
def loadAll [Inhabited MovieInfo] (w : World MovieInfo σ) :
    List (time.Time × model.Room) → World MovieInfo σ × List (Room MovieInfo × Option GoError)
  | [] => (w, [])
  | call :: calls =>
    let out := LoadRoom w call.1 call.2
    let rest := loadAll out.1 calls
    (rest.1, out.2 :: rest.2)

/-- One call of an entry point of the registry, with the clock reading it takes where it
constructs a room. -/
inductive Call (MovieInfo Conf : Type) where
  | create (now : time.Time) (name password : String) (conf : List Conf)
  | load (now : time.Time) (record : model.Room)
  | getByID (now : time.Time) (id : Nat)
  | delete (r : Room MovieInfo)
  | deleteByID (id : Nat)

/-- The state after one call.  A `DeleteRoomByID` that panics leaves the state as it was: it
panics only when `LoadAndDelete` found no entry to remove. -/
def Call.step [Inhabited MovieInfo] (D : DB σ Conf) (w : World MovieInfo σ) :
    Call MovieInfo Conf → World MovieInfo σ
  | .create now name password conf => (CreateRoom D w now name password conf).1
  | .load now record => (LoadRoom w now record).1
  | .getByID now id => (GetRoomByID D w now id).1
  | .delete r => (DeleteRoom D w r).1
  | .deleteByID id =>
    match DeleteRoomByID D w id with
    | .ok out => out.1
    | .error _ => w

/-- The state after a sequence of calls, performed in order. -/
def runCalls [Inhabited MovieInfo] (D : DB σ Conf) (w : World MovieInfo σ)
    (calls : List (Call MovieInfo Conf)) : World MovieInfo σ :=
  calls.foldl (Call.step D) w

/-- The registry right after process start: no room registered, none closed; `s` is the state
of the persistence collaborator. -/
def World.initial (s : σ) : World MovieInfo σ :=
  { roomCache := ∅, db := s, closed := [] }

end op

/-! ## Concrete inputs used by the examples -/

namespace fixtures

/-- A persistence collaborator that holds no record and whose state is the list of the
identifiers passed to the durable delete, latest first; the durable delete succeeds. -/
def logDB : op.DB (List Nat) Unit where
  CreateRoom := fun s _ _ _ => (s, .error "create failed")
  GetRoomByID := fun s _ => (s, .error "record not found")
  GetAllRooms := fun s => (s, .ok [])
  HasRoom := fun s _ => (s, .ok false)
  HasRoomByName := fun s _ => (s, .ok false)
  DeleteRoomByID := fun s id => (id :: s, none)

/-- A persisted record with identifier 1 and an empty password hash. -/
def record1 : model.Room :=
  { ID := 1, Name := "lobby", HashedPassword := [], Setting := { Hidden := false } }

/-- The room `initRoom` constructs from `record1` at the instant 0. -/
def room1 : op.Room String :=
  { Room := record1, version := 0, current := room.newCurrent 0 }

/-- The empty registry, nothing deleted and nothing closed yet. -/
def emptyWorld : op.World String (List Nat) :=
  { roomCache := ∅, db := [], closed := [] }

/-- The registry after `LoadRoom(record1)` at the instant 0 from the empty registry. -/
def oneRoomWorld : op.World String (List Nat) :=
  (op.LoadRoom emptyWorld 0 record1).1

/-- A second record with identifier 1, as a racing loader may hold it. -/
def record1b : model.Room :=
  { ID := 1, Name := "lobby", HashedPassword := [7], Setting := { Hidden := false } }

/-- A hidden room's record, with identifier 2 and a password hash of three bytes. -/
def record2 : model.Room :=
  { ID := 2, Name := "cinema", HashedPassword := [1, 2, 3], Setting := { Hidden := true } }

/-- A persistence collaborator whose state is the list of the persisted records; reads
leave it as it is and the durable delete removes the records with the identifier. -/
def recordDB : op.DB (List model.Room) Unit where
  CreateRoom := fun s _ _ _ => (s, .error "create failed")
  GetRoomByID := fun s id =>
    (s, match s.find? (fun r => r.ID == id) with
        | some r => .ok r
        | none => .error "record not found")
  GetAllRooms := fun s => (s, .ok s)
  HasRoom := fun s id => (s, .ok (s.any (fun r => r.ID == id)))
  HasRoomByName := fun s name => (s, .ok (s.any (fun r => r.Name == name)))
  DeleteRoomByID := fun s id => (s.filter (fun r => r.ID != id), none)

/-- The empty registry over a persistence state that holds `record1` and `record2`. -/
def storedWorld : op.World String (List model.Room) :=
  { roomCache := ∅, db := [record1, record2], closed := [] }

end fixtures

/-! ## Properties of the playback clock -/

namespace time

/-- In exact arithmetic `Duration.Seconds` is the duration divided by 10^9. -/
theorem Seconds_eq_div (d : Duration) : Seconds d = (d : ℚ) / 1000000000 := by
  have h : (Second : Int) * d.tdiv Second + d.tmod Second = d := Int.tdiv_add_tmod d Second
  have hq : ((Second : Int) : ℚ) * ((d.tdiv Second : Int) : ℚ) + ((d.tmod Second : Int) : ℚ)
      = (d : ℚ) := by exact_mod_cast h
  have hs : ((Second : Int) : ℚ) = 1000000000 := by simp [Second]
  rw [hs] at hq
  unfold Seconds
  rw [← hq]
  field_simp
  ring

/-- No time elapses between an instant and itself. -/
theorem Seconds_Since_self (t : Time) : Seconds (Since t t) = 0 := by
  rw [Seconds_eq_div]
  simp [Since]

end time

namespace room

namespace Current

variable {MovieInfo : Type}

/-- A paused `Current` is left with the same `Seek` and still paused by a read, and the read
returns that `Seek`. -/
theorem StatusAt_paused (c : Current MovieInfo) (t : time.Time)
    (h : c.status.Playing = false) :
    (StatusAt c t).2.Seek = c.status.Seek ∧ (StatusAt c t).2.Playing = false
      ∧ (StatusAt c t).1.status.Seek = c.status.Seek
      ∧ (StatusAt c t).1.status.Playing = false := by
  simp [StatusAt, Status, updateSeek, h]

/-- Reads of a paused `Current`: one snapshot per read, each with the stored `Seek`, and the
stored `Seek` is left as it was. -/
theorem statusReads_paused (ts : List time.Time) :
    ∀ c : Current MovieInfo, c.status.Playing = false →
      (statusReads c ts).2.length = ts.length
      ∧ (∀ s ∈ (statusReads c ts).2, s.Seek = c.status.Seek ∧ s.Playing = false)
      ∧ (statusReads c ts).1.status.Seek = c.status.Seek
      ∧ (statusReads c ts).1.status.Playing = false := by
  induction ts with
  | nil =>
    intro c h
    simp [statusReads, h]
  | cons t ts ih =>
    intro c h
    obtain ⟨h1, h2, h3, h4⟩ := StatusAt_paused c t h
    obtain ⟨i1, i2, i3, i4⟩ := ih (StatusAt c t).1 h4
    refine ⟨?_, ?_, ?_, ?_⟩
    · simp [statusReads, i1]
    · intro s hs
      simp only [statusReads, List.mem_cons] at hs
      rcases hs with hs | hs
      · subst hs
        exact ⟨h1, h2⟩
      · have := i2 s hs
        exact ⟨this.1.trans h3, this.2⟩
    · simpa [statusReads] using i3.trans h3
    · simpa [statusReads] using i4

/-- C1: `SetStatus(true, seek, rate, timeDiff)` returns and stores a status with
`Seek = seek + timeDiff * rate`, `Rate = rate` and `Playing = true`, whatever the state before
the call was; `SetStatus(true, 10, 2, 0.5)` gives `Seek = 11`, `Rate = 2`, `Playing = true`. -/
theorem C1_SetStatus_playing_projects (c : Current MovieInfo) (now : time.Time)
    (seek rate timeDiff : ℚ) :
    (SetStatus c now true seek rate timeDiff).2.Seek = seek + timeDiff * rate
      ∧ (SetStatus c now true seek rate timeDiff).2.Rate = rate
      ∧ (SetStatus c now true seek rate timeDiff).2.Playing = true
      ∧ (SetStatus c now true seek rate timeDiff).1.status
          = (SetStatus c now true seek rate timeDiff).2
      ∧ (∀ c' : Current MovieInfo,
          (SetStatus c' now true seek rate timeDiff).2
            = (SetStatus c now true seek rate timeDiff).2)
      ∧ ((SetStatus c now true 10 2 (1 / 2)).2.Seek = 11
          ∧ (SetStatus c now true 10 2 (1 / 2)).2.Rate = 2
          ∧ (SetStatus c now true 10 2 (1 / 2)).2.Playing = true) := by
  refine ⟨?_, ?_, ?_, ?_, ?_, ?_⟩ <;> simp [SetStatus]
  norm_num

/-- C2: `SetStatus(false, seek, rate, timeDiff)` returns and stores a status with
`Seek = seek` whatever `timeDiff` is, `Playing = false` and `Rate = rate`;
`SetStatus(false, 10, 2, 0.5)` gives `Seek = 10`. -/
theorem C2_SetStatus_paused_exact (c : Current MovieInfo) (now : time.Time)
    (seek rate timeDiff : ℚ) :
    (SetStatus c now false seek rate timeDiff).2.Seek = seek
      ∧ (SetStatus c now false seek rate timeDiff).2.Playing = false
      ∧ (SetStatus c now false seek rate timeDiff).2.Rate = rate
      ∧ (SetStatus c now false seek rate timeDiff).1.status
          = (SetStatus c now false seek rate timeDiff).2
      ∧ (∀ (c' : Current MovieInfo) (timeDiff' : ℚ),
          (SetStatus c' now false seek rate timeDiff').2
            = (SetStatus c now false seek rate timeDiff).2)
      ∧ (SetStatus c now false 10 2 (1 / 2)).2.Seek = 10 := by
  refine ⟨?_, ?_, ?_, ?_, ?_, ?_⟩ <;> simp [SetStatus]

/-- C3: `SetSeekRate(seek, rate, timeDiff)` keeps the `Playing` flag, sets `Rate = rate`, and
sets `Seek = seek + timeDiff * rate` when the flag was true and `Seek = seek` when it was
false; `SetSeekRate(5, 1.5, 1)` gives `Seek = 6.5` when playing and `Seek = 5` when paused. -/
theorem C3_SetSeekRate_keeps_playing (c : Current MovieInfo) (now : time.Time)
    (seek rate timeDiff : ℚ) :
    (SetSeekRate c now seek rate timeDiff).2.Playing = c.status.Playing
      ∧ (SetSeekRate c now seek rate timeDiff).2.Rate = rate
      ∧ (SetSeekRate c now seek rate timeDiff).2.Seek
          = (if c.status.Playing = true then seek + timeDiff * rate else seek)
      ∧ (SetSeekRate c now seek rate timeDiff).1.status
          = (SetSeekRate c now seek rate timeDiff).2
      ∧ (SetSeekRate c now 5 (3 / 2) 1).2.Seek
          = (if c.status.Playing = true then 13 / 2 else 5) := by
  cases h : c.status.Playing <;> simp [SetSeekRate, h]
  norm_num

/-- C4: for a playing `Current` with `Rate = r` and `Seek = s0` anchored at `t0`, a `Status()`
read at `t1 ≥ t0` returns `Seek = s0 + r * (t1 - t0)`, the elapsed time counted in seconds
(instants are in nanoseconds), with `Rate = r` and `Playing = true`; the same holds right
after `SetStatus(true, s0, r, 0)` performed at `t0`. -/
theorem C4_Status_playing_projection (c : Current MovieInfo) (s0 r : ℚ) (t0 t1 : time.Time)
    (hp : c.status.Playing = true) (hr : c.status.Rate = r) (hs : c.status.Seek = s0)
    (h0 : c.status.lastUpdateTime = t0) (_ht : t0 ≤ t1) :
    ((StatusAt c t1).2.Seek = s0 + r * (((t1 - t0 : Int) : ℚ) / 1000000000)
        ∧ (StatusAt c t1).2.Rate = r
        ∧ (StatusAt c t1).2.Playing = true)
      ∧ ((StatusAt (SetStatus c t0 true s0 r 0).1 t1).2.Seek
            = s0 + r * (((t1 - t0 : Int) : ℚ) / 1000000000)
        ∧ (StatusAt (SetStatus c t0 true s0 r 0).1 t1).2.Rate = r
        ∧ (StatusAt (SetStatus c t0 true s0 r 0).1 t1).2.Playing = true) := by
  refine ⟨⟨?_, ?_, ?_⟩, ⟨?_, ?_, ?_⟩⟩
  · simp only [StatusAt, Status, updateSeek, hp, hr, hs, h0, if_true, time.Seconds_eq_div,
      time.Since]
    ring
  · simp [StatusAt, Status, updateSeek, hp, hr]
  · simp [StatusAt, Status, updateSeek, hp]
  · simp only [StatusAt, Status, updateSeek, SetStatus, if_true, time.Seconds_eq_div,
      time.Since]
    ring
  · simp [StatusAt, Status, updateSeek, SetStatus]
  · simp [StatusAt, Status, updateSeek, SetStatus]

/-- Witness of C4: playing at rate 2 from position 10 anchored at 5 ns, read 2 s later. -/
theorem C4_Status_playing_projection_witness :
    (5 : time.Time) ≤ 2000000005
      ∧ (StatusAt (⟨"a", ⟨10, 2, true, 5⟩⟩ : Current String) 2000000005).2.Seek
          = 10 + 2 * ((((2000000005 : Int) - 5 : Int) : ℚ) / 1000000000) :=
  ⟨by decide,
    (C4_Status_playing_projection (⟨"a", ⟨10, 2, true, 5⟩⟩ : Current String) 10 2 5 2000000005
      rfl rfl rfl rfl (by decide)).1.1⟩

/-- C5: for a paused `Current`, `Status()` reads at any instants, however many, each return
the stored `Seek` and leave it stored, whatever the rate is; after a pause applied by
`SetStatus(false, seek, rate, timeDiff)` at `t1`, every later read returns `seek`. -/
theorem C5_Status_paused_frozen (c : Current MovieInfo) (ts : List time.Time)
    (hp : c.status.Playing = false) :
    ((statusReads c ts).2.length = ts.length
        ∧ (∀ s ∈ (statusReads c ts).2, s.Seek = c.status.Seek)
        ∧ (statusReads c ts).1.status.Seek = c.status.Seek)
      ∧ (∀ (c0 : Current MovieInfo) (t1 : time.Time) (seek rate timeDiff : ℚ),
          (statusReads (SetStatus c0 t1 false seek rate timeDiff).1 ts).2.length = ts.length
          ∧ ∀ s ∈ (statusReads (SetStatus c0 t1 false seek rate timeDiff).1 ts).2,
              s.Seek = seek) := by
  constructor
  · obtain ⟨h1, h2, h3, _⟩ := statusReads_paused ts c hp
    exact ⟨h1, fun s hs => (h2 s hs).1, h3⟩
  · intro c0 t1 seek rate timeDiff
    have hq : (SetStatus c0 t1 false seek rate timeDiff).1.status.Playing = false := by
      simp [SetStatus]
    have hk : (SetStatus c0 t1 false seek rate timeDiff).1.status.Seek = seek := by
      simp [SetStatus]
    obtain ⟨h1, h2, _, _⟩ := statusReads_paused ts _ hq
    exact ⟨h1, fun s hs => ((h2 s hs).1).trans hk⟩

/-- Witness of C5: paused at position 7 with rate 3, read at 1 s, 2 s and 60 s. -/
theorem C5_Status_paused_frozen_witness :
    (⟨"a", ⟨7, 3, false, 0⟩⟩ : Current String).status.Playing = false
      ∧ ∀ s ∈ (statusReads (⟨"a", ⟨7, 3, false, 0⟩⟩ : Current String)
            [1000000000, 2000000000, 60000000000]).2, s.Seek = 7 :=
  ⟨rfl,
    (C5_Status_paused_frozen (⟨"a", ⟨7, 3, false, 0⟩⟩ : Current String)
      [1000000000, 2000000000, 60000000000] rfl).1.2.1⟩

/-- What a read at the instant of a `SetMovie` returns: `SetMovie` leaves `lastUpdateTime`
as it was, so while playing the read adds the time elapsed since the old anchor. -/
theorem SetMovie_then_StatusAt (c : Current MovieInfo) (m : MovieInfo) (t : time.Time) :
    (StatusAt (SetMovie c m) t).2.Seek
      = if c.status.Playing = true then
          (((t - c.status.lastUpdateTime : Int) : ℚ) / 1000000000) * c.status.Rate
        else 0 := by
  cases h : c.status.Playing <;>
    simp [StatusAt, Status, updateSeek, SetMovie, h, time.Seconds_eq_div, time.Since]

/-- C6, the code at the failing input: playing at rate 1 from position 5 anchored at 0,
`SetMovie` performed at 2 s and `Status()` read at that same instant returns `Seek = 2`,
not 0. -/
theorem C6_SetMovie_playing_read_not_zero :
    (StatusAt (SetMovie (⟨"a", ⟨5, 1, true, 0⟩⟩ : Current String) "b") 2000000000).2.Seek = 2
      ∧ (StatusAt (SetMovie (⟨"a", ⟨5, 1, true, 0⟩⟩ : Current String) "b") 2000000000).2.Seek
          ≠ 0 := by
  have h : (StatusAt (SetMovie (⟨"a", ⟨5, 1, true, 0⟩⟩ : Current String) "b")
      2000000000).2.Seek = 2 := by
    rw [SetMovie_then_StatusAt]
    norm_num
  exact ⟨h, by rw [h]; norm_num⟩

/-- C7: `SetMovie(m)` makes `Movie()` return `m`, sets the stored `Seek` to 0 and leaves the
stored `Playing` flag and `Rate` as they were. -/
theorem C7_SetMovie_frame (c : Current MovieInfo) (m : MovieInfo) :
    Movie (SetMovie c m) = m
      ∧ (SetMovie c m).status.Seek = 0
      ∧ (SetMovie c m).status.Playing = c.status.Playing
      ∧ (SetMovie c m).status.Rate = c.status.Rate := by
  simp [Movie, SetMovie]

end Current

end room

/-! ## Properties of the room registry -/

namespace rwmap

variable {V : Type}

/-- A `Range` whose closure appends every visited value and never stops early appends the
values of the remaining entries in order. -/
theorem rangeLoop_append (es : List (Sigma fun _ : Nat => V)) :
    ∀ s : List (Option V),
      rangeLoop (fun _ value rooms => (rooms ++ [some value], true)) es s
        = s ++ es.map (fun e => some e.2) := by
  induction es with
  | nil => intro s; simp [rangeLoop]
  | cons e es ih => intro s; simp [rangeLoop, ih]

end rwmap

namespace op

variable {MovieInfo σ Conf : Type}

/-- C8: `LoadRoom(rec)` is a compare-and-insert.  With no entry for `rec.ID` the registry
afterwards maps `rec.ID` to the newly constructed room (every other entry as before), that
room is returned and the error is nil; with an entry for `rec.ID` that entry is returned
with the error "room already exists" and nothing changes. -/
theorem C8_LoadRoom_compare_and_insert [Inhabited MovieInfo] (w : World MovieInfo σ)
    (now : time.Time) (record : model.Room) :
    match w.roomCache.lookup record.ID with
    | none =>
      (LoadRoom w now record).2
          = (({ Room := record
                version := crc32.ChecksumIEEE record.HashedPassword
                current := room.newCurrent now } : Room MovieInfo), none)
        ∧ (LoadRoom w now record).1.roomCache.lookup record.ID
            = some { Room := record
                     version := crc32.ChecksumIEEE record.HashedPassword
                     current := room.newCurrent now }
        ∧ (∀ k : Nat, k ≠ record.ID →
            (LoadRoom w now record).1.roomCache.lookup k = w.roomCache.lookup k)
        ∧ (LoadRoom w now record).1.db = w.db
        ∧ (LoadRoom w now record).1.closed = w.closed
    | some existing =>
      LoadRoom w now record = (w, existing, some "room already exists") := by
  cases h : w.roomCache.lookup record.ID with
  | none =>
    simp only [LoadRoom, initRoom, rwmap.LoadOrStore, h, List.foldl_nil]
    refine ⟨by simp, by simp, ?_, by simp, by simp⟩
    intro k hk
    simp [AList.lookup_insert_ne hk]
  | some existing =>
    simp [LoadRoom, initRoom, rwmap.LoadOrStore, h]

/-- What `DeleteRoomByID` does in each case: with an entry for `id` the room is closed and
removed and the durable delete is called with the room's own identifier; with no entry the
call panics on `r.ID`. -/
theorem DeleteRoomByID_cases (D : DB σ Conf) (w : World MovieInfo σ) (id : Nat) :
    DeleteRoomByID D w id =
      match w.roomCache.lookup id with
      | none => .error Panic.nilPointerDereference
      | some r =>
        .ok ({ roomCache := w.roomCache.erase id
               db := (D.DeleteRoomByID w.db r.Room.ID).1
               closed := r :: w.closed }, (D.DeleteRoomByID w.db r.Room.ID).2) := by
  cases h : w.roomCache.lookup id <;>
    simp [DeleteRoomByID, rwmap.LoadAndDelete, h, close]

/-- C9, the code at the failing input: `DeleteRoomByID(1)` on the empty registry panics with
a nil pointer dereference, and so does the second of two `DeleteRoomByID(1)` calls on a
registry that holds room 1, after the first has returned nil and called the durable delete
with 1. -/
theorem C9_DeleteRoomByID_missing_entry_panics :
    DeleteRoomByID fixtures.logDB fixtures.emptyWorld 1
        = .error Panic.nilPointerDereference
      ∧ (match DeleteRoomByID fixtures.logDB fixtures.oneRoomWorld 1 with
          | .ok (w1, err) =>
            err = none ∧ w1.db = [1]
              ∧ DeleteRoomByID fixtures.logDB w1 1 = .error Panic.nilPointerDereference
          | .error _ => False) := by
  constructor
  · rw [DeleteRoomByID_cases]
    rfl
  · rw [DeleteRoomByID_cases]
    have h : fixtures.oneRoomWorld.roomCache.lookup 1 = some fixtures.room1 := by
      simp [fixtures.oneRoomWorld, fixtures.emptyWorld, fixtures.record1, fixtures.room1,
        LoadRoom, initRoom, rwmap.LoadOrStore]
      decide
    simp only [h]
    refine ⟨rfl, rfl, ?_⟩
    rw [DeleteRoomByID_cases]
    simp

/-- C10, the code on every registry and at the failing input: `GetAllRooms` returns `Len`
nil pointers followed by the registered rooms, twice as many elements as the registry has
entries; on the registry that holds only room 1 it returns nil and then room 1. -/
theorem C10_GetAllRooms_nil_padding (w : World MovieInfo σ) :
    GetAllRooms w
        = List.replicate w.roomCache.entries.length none
            ++ w.roomCache.entries.map (fun e => some e.2)
      ∧ (GetAllRooms w).length = 2 * w.roomCache.entries.length
      ∧ GetAllRooms fixtures.oneRoomWorld = [none, some fixtures.room1] := by
  have h : GetAllRooms w
      = List.replicate w.roomCache.entries.length none
          ++ w.roomCache.entries.map (fun e => some e.2) := by
    simp [GetAllRooms, rwmap.Range, rwmap.Len, rwmap.rangeLoop_append]
  refine ⟨h, ?_, ?_⟩
  · rw [h]
    simp
    omega
  · simp [GetAllRooms, rwmap.Range, rwmap.Len, rwmap.rangeLoop_append, fixtures.oneRoomWorld,
      fixtures.emptyWorld, fixtures.record1, fixtures.room1, LoadRoom, initRoom,
      rwmap.LoadOrStore]
    decide

end op

namespace rwmap

variable {V : Type}

/-- A `Range` whose closure appends the visited values that pass the test `keep` and never
stops early appends exactly those values of the remaining entries, in order. -/
theorem rangeLoop_append_if (keep : V → Bool) (es : List (Sigma fun _ : Nat => V)) :
    ∀ s : List (Option V),
      rangeLoop
          (fun _ value rooms => if keep value then (rooms ++ [some value], true) else (rooms, true))
          es s
        = s ++ (es.filter (fun e => keep e.2)).map (fun e => some e.2) := by
  induction es with
  | nil => intro s; simp [rangeLoop]
  | cons e es ih =>
    intro s
    cases h : keep e.2 <;> simp [rangeLoop, ih, h]

end rwmap

namespace op

variable {MovieInfo σ Conf : Type}

/-- C11: `GetAllRoomsWithoutHidden` returns exactly the registered rooms whose `Hidden`
setting is false, one element for each such entry in the order of `Range`: every element is a
registered room that is not nil and not hidden, every registered room that is not hidden is
an element, and the empty registry gives the empty result. -/
theorem C11_GetAllRoomsWithoutHidden_exact (w : World MovieInfo σ) :
    GetAllRoomsWithoutHidden w
        = ((w.roomCache.entries.filter (fun e => !e.2.Room.Setting.Hidden)).map
            (fun e => some e.2))
      ∧ (∀ x ∈ GetAllRoomsWithoutHidden w,
          ∃ r : Room MovieInfo, x = some r ∧ r.Room.Setting.Hidden = false
            ∧ ∃ k : Nat, w.roomCache.lookup k = some r)
      ∧ (∀ (k : Nat) (r : Room MovieInfo), w.roomCache.lookup k = some r →
          r.Room.Setting.Hidden = false → some r ∈ GetAllRoomsWithoutHidden w)
      ∧ (w.roomCache.entries = [] → GetAllRoomsWithoutHidden w = []) := by
  have h : GetAllRoomsWithoutHidden w
      = ((w.roomCache.entries.filter (fun e => !e.2.Room.Setting.Hidden)).map
          (fun e => some e.2)) := by
    have := rwmap.rangeLoop_append_if (fun r : Room MovieInfo => !r.Room.Setting.Hidden)
      w.roomCache.entries []
    simpa [GetAllRoomsWithoutHidden, rwmap.Range] using this
  refine ⟨h, ?_, ?_, ?_⟩
  · intro x hx
    rw [h] at hx
    simp only [List.mem_map, List.mem_filter] at hx
    obtain ⟨e, ⟨he, hh⟩, rfl⟩ := hx
    refine ⟨e.2, rfl, by simpa using hh, e.1, ?_⟩
    exact AList.mem_lookup_iff.mpr he
  · intro k r hk hr
    rw [h]
    simp only [List.mem_map, List.mem_filter]
    exact ⟨⟨k, r⟩, ⟨AList.mem_lookup_iff.mp hk, by simp [hr]⟩, rfl⟩
  · intro he
    rw [h, he]
    rfl

end op

namespace op

variable {MovieInfo σ Conf : Type}

/-- A `LoadRoom` for an identifier that is not registered returns the room it constructs with
a nil error and registers it, every other entry staying as it was. -/
theorem LoadRoom_miss [Inhabited MovieInfo] (w : World MovieInfo σ) (now : time.Time)
    (record : model.Room) (h : w.roomCache.lookup record.ID = none) :
    (LoadRoom w now record).2
        = (({ Room := record
              version := crc32.ChecksumIEEE record.HashedPassword
              current := room.newCurrent now } : Room MovieInfo), none)
      ∧ (LoadRoom w now record).1.roomCache.lookup record.ID
          = some { Room := record
                   version := crc32.ChecksumIEEE record.HashedPassword
                   current := room.newCurrent now }
      ∧ (∀ k : Nat, k ≠ record.ID →
          (LoadRoom w now record).1.roomCache.lookup k = w.roomCache.lookup k)
      ∧ (LoadRoom w now record).1.db = w.db
      ∧ (LoadRoom w now record).1.closed = w.closed := by
  simp only [LoadRoom, initRoom, rwmap.LoadOrStore, h, List.foldl_nil]
  refine ⟨by simp, by simp, ?_, by simp, by simp⟩
  intro k hk
  simp [AList.lookup_insert_ne hk]

/-- A `LoadRoom` for a registered identifier returns the registered room with "room already
exists" and changes nothing. -/
theorem LoadRoom_hit [Inhabited MovieInfo] (w : World MovieInfo σ) (now : time.Time)
    (record : model.Room) (r : Room MovieInfo) (h : w.roomCache.lookup record.ID = some r) :
    LoadRoom w now record = (w, r, some "room already exists") := by
  simp [LoadRoom, initRoom, rwmap.LoadOrStore, h]

/-- Once an identifier is registered, every further `LoadRoom` for it returns the registered
room with "room already exists" and leaves the state as it is. -/
theorem loadAll_registered [Inhabited MovieInfo] (id : Nat) (r : Room MovieInfo)
    (calls : List (time.Time × model.Room)) :
    ∀ w : World MovieInfo σ, w.roomCache.lookup id = some r →
      (∀ c ∈ calls, c.2.ID = id) →
      loadAll w calls = (w, calls.map (fun _ => (r, some "room already exists"))) := by
  induction calls with
  | nil => intro w _ _; rfl
  | cons c calls ih =>
    intro w hw hid
    have hc : c.2.ID = id := hid c (List.mem_cons_self _ _)
    have hstep : LoadRoom w c.1 c.2 = (w, r, some "room already exists") :=
      LoadRoom_hit w c.1 c.2 r (hc ▸ hw)
    have hrest := ih w hw (fun c' hc' => hid c' (List.mem_cons_of_mem _ hc'))
    simp [loadAll, hstep, hrest]

/-- C12: when `N = rest.length + 1` calls of `LoadRoom` for records with the same identifier,
absent from the registry, take effect in any order, the registry retains exactly one
constructed room, the one of the call that took effect first; all `N` calls return that
room, exactly one call returns a nil error and exactly `N - 1` return "room already
exists". -/
theorem C12_loadAll_single_winner [Inhabited MovieInfo] (w : World MovieInfo σ) (id : Nat)
    (first : time.Time × model.Room) (rest : List (time.Time × model.Room))
    (hfresh : w.roomCache.lookup id = none)
    (hid : ∀ c ∈ first :: rest, c.2.ID = id) :
    ∃ winner : Room MovieInfo,
      winner = { Room := first.2
                 version := crc32.ChecksumIEEE first.2.HashedPassword
                 current := room.newCurrent first.1 }
      ∧ (loadAll w (first :: rest)).1.roomCache.lookup id = some winner
      ∧ (∀ k : Nat, k ≠ id →
          (loadAll w (first :: rest)).1.roomCache.lookup k = w.roomCache.lookup k)
      ∧ (loadAll w (first :: rest)).2.length = rest.length + 1
      ∧ (∀ res ∈ (loadAll w (first :: rest)).2, res.1 = winner)
      ∧ ((loadAll w (first :: rest)).2.countP (fun res => res.2.isNone)) = 1
      ∧ ((loadAll w (first :: rest)).2.countP
            (fun res => res.2 == some "room already exists")) = rest.length := by
  have hf : first.2.ID = id := hid first (List.mem_cons_self _ _)
  obtain ⟨h1, h2, h3, _, _⟩ := LoadRoom_miss w first.1 first.2 (hf ▸ hfresh)
  have hrest := loadAll_registered id _ rest (LoadRoom w first.1 first.2).1 (hf ▸ h2)
    (fun c hc => hid c (List.mem_cons_of_mem _ hc))
  refine ⟨_, rfl, ?_, ?_, ?_, ?_, ?_, ?_⟩
  · rw [hf] at h2
    simpa [loadAll, hrest] using h2
  · intro k hk
    simpa [loadAll, hrest] using h3 k (hf ▸ hk)
  · simp [loadAll, hrest]
  · intro res hres
    simp only [loadAll, hrest, List.mem_cons, List.mem_map] at hres
    rcases hres with hres | ⟨_, _, hres⟩
    · rw [hres, h1]
    · rw [← hres]
  · simp [loadAll, hrest, h1, List.countP_cons, List.countP_map]
  · simp only [loadAll, hrest, h1, List.countP_cons, List.countP_map]
    have hall : ∀ x ∈ rest,
        ((fun res : Room MovieInfo × Option GoError => res.2 == some "room already exists")
          ∘ fun _ : time.Time × model.Room =>
            (({ Room := first.2
                version := crc32.ChecksumIEEE first.2.HashedPassword
                current := room.newCurrent first.1 } : Room MovieInfo),
              some "room already exists")) x = true := by
      intro x _
      simp
    rw [List.countP_eq_length.mpr hall]
    simp

end op

namespace op

variable {MovieInfo σ Conf : Type}

/-- Witness of C12: three loads for identifier 1 on the empty registry, the first at the
instant 0 with `record1`. -/
theorem C12_loadAll_single_winner_witness :
    fixtures.emptyWorld.roomCache.lookup 1 = none
      ∧ (∀ c ∈ ((0, fixtures.record1) :: [(5, fixtures.record1b), (9, fixtures.record1)] :
            List (time.Time × model.Room)), c.2.ID = 1)
      ∧ ∃ winner : Room String,
          winner = { Room := fixtures.record1
                     version := crc32.ChecksumIEEE fixtures.record1.HashedPassword
                     current := room.newCurrent 0 }
          ∧ ∀ res ∈ (loadAll fixtures.emptyWorld
                ((0, fixtures.record1) :: [(5, fixtures.record1b), (9, fixtures.record1)])).2,
              res.1 = winner :=
  ⟨rfl, by decide, by
    obtain ⟨winner, h1, _, _, _, h5, _, _⟩ :=
      C12_loadAll_single_winner fixtures.emptyWorld 1 (0, fixtures.record1)
        [(5, fixtures.record1b), (9, fixtures.record1)] rfl (by decide)
    exact ⟨winner, h1, h5⟩⟩

/-- C13: `GetRoomByID(id)` returns the registered room with a nil error, leaving registry and
persistence untouched, when `id` is registered; when it is not and the persistence lookup
fails, it returns no room and that error and the registry is unchanged; when it is not and
persistence returns the record of `id`, the room built from the record is registered and
returned with a nil error. -/
theorem C13_GetRoomByID_cases [Inhabited MovieInfo] (D : DB σ Conf) (w : World MovieInfo σ)
    (now : time.Time) (id : Nat)
    (hdb : ∀ record : model.Room, (D.GetRoomByID w.db id).2 = .ok record → record.ID = id) :
    match w.roomCache.lookup id with
    | some r => GetRoomByID D w now id = (w, some r, none)
    | none =>
      match (D.GetRoomByID w.db id).2 with
      | .error err =>
        GetRoomByID D w now id
          = ({ w with db := (D.GetRoomByID w.db id).1 }, none, some err)
      | .ok record =>
        (GetRoomByID D w now id).2
            = (some { Room := record
                      version := crc32.ChecksumIEEE record.HashedPassword
                      current := room.newCurrent now }, none)
          ∧ (GetRoomByID D w now id).1.roomCache.lookup id
              = some { Room := record
                       version := crc32.ChecksumIEEE record.HashedPassword
                       current := room.newCurrent now }
          ∧ (∀ k : Nat, k ≠ id →
              (GetRoomByID D w now id).1.roomCache.lookup k = w.roomCache.lookup k)
          ∧ (GetRoomByID D w now id).1.db = (D.GetRoomByID w.db id).1 := by
  cases h : w.roomCache.lookup id with
  | some r => simp [GetRoomByID, rwmap.Load, h]
  | none =>
    cases hg : (D.GetRoomByID w.db id).2 with
    | error err => simp [GetRoomByID, rwmap.Load, h, hg]
    | ok record =>
      have hid : record.ID = id := hdb record hg
      have hmiss : ({ w with db := (D.GetRoomByID w.db id).1 } :
          World MovieInfo σ).roomCache.lookup record.ID = none := by
        rw [hid]; exact h
      obtain ⟨h1, h2, h3, h4, _⟩ := LoadRoom_miss _ now record hmiss
      have hres : GetRoomByID D w now id
          = ((LoadRoom ({ w with db := (D.GetRoomByID w.db id).1 } : World MovieInfo σ)
                now record).1,
              some (LoadRoom ({ w with db := (D.GetRoomByID w.db id).1 } : World MovieInfo σ)
                now record).2.1,
              (LoadRoom ({ w with db := (D.GetRoomByID w.db id).1 } : World MovieInfo σ)
                now record).2.2) := by
        simp [GetRoomByID, rwmap.Load, h, hg, LoadRoom]
      simp only [hres]
      refine ⟨?_, ?_, ?_, ?_⟩
      · rw [h1]
      · rw [hid] at h2
        exact h2
      · intro k hk
        exact h3 k (by rw [hid]; exact hk)
      · exact h4

/-- Witness of C13: identifier 2 is not registered and persistence holds its record. -/
theorem C13_GetRoomByID_cases_witness :
    (∀ record : model.Room,
        (fixtures.recordDB.GetRoomByID fixtures.storedWorld.db 2).2 = .ok record →
          record.ID = 2)
      ∧ (GetRoomByID fixtures.recordDB fixtures.storedWorld 7 2).2
          = (some { Room := fixtures.record2
                    version := crc32.ChecksumIEEE fixtures.record2.HashedPassword
                    current := room.newCurrent 7 }, none) :=
  ⟨by intro record h; cases h; rfl,
    (C13_GetRoomByID_cases fixtures.recordDB fixtures.storedWorld 7 2
      (by intro record h; cases h; rfl)).1⟩

end op

namespace op

variable {MovieInfo σ Conf : Type}

/-- C14: `DeleteRoom(r)` leaves the registry with no entry for `r.ID` and every other entry
as it was, records that `r` was closed, calls the durable delete for `r.ID` and returns
exactly its result, error included; this holds for every room `r`, registered or not. -/
theorem C14_DeleteRoom_effect (D : DB σ Conf) (w : World MovieInfo σ) (r : Room MovieInfo) :
    (DeleteRoom D w r).1.roomCache.lookup r.Room.ID = none
      ∧ (∀ k : Nat, k ≠ r.Room.ID →
          (DeleteRoom D w r).1.roomCache.lookup k = w.roomCache.lookup k)
      ∧ (DeleteRoom D w r).2 = (D.DeleteRoomByID w.db r.Room.ID).2
      ∧ (DeleteRoom D w r).1.db = (D.DeleteRoomByID w.db r.Room.ID).1
      ∧ (DeleteRoom D w r).1.closed = r :: w.closed := by
  refine ⟨?_, ?_, ?_, ?_, ?_⟩
  · simp [DeleteRoom, rwmap.Delete, close]
  · intro k hk
    simp [DeleteRoom, rwmap.Delete, close, AList.lookup_erase_ne hk]
  · simp [DeleteRoom, close]
  · simp [DeleteRoom, close]
  · simp [DeleteRoom, close]

/-- The stamp invariant: every registered room carries the checksum of its own password
hash. -/
theorem initRoom_keeps_stamps [Inhabited MovieInfo] (w : World MovieInfo σ) (now : time.Time)
    (record : model.Room)
    (hw : ∀ (k : Nat) (r : Room MovieInfo), w.roomCache.lookup k = some r →
      r.version = crc32.ChecksumIEEE r.Room.HashedPassword) :
    ∀ (k : Nat) (r : Room MovieInfo), (initRoom w now record []).1.roomCache.lookup k = some r →
      r.version = crc32.ChecksumIEEE r.Room.HashedPassword := by
  intro k r hk
  cases h : w.roomCache.lookup record.ID with
  | some existing =>
    have := LoadRoom_hit w now record existing h
    simp only [LoadRoom] at this
    rw [this] at hk
    exact hw k r hk
  | none =>
    obtain ⟨_, h2, h3, _, _⟩ := LoadRoom_miss w now record h
    simp only [LoadRoom] at h2 h3
    by_cases hkid : k = record.ID
    · subst hkid
      rw [h2] at hk
      cases hk
      rfl
    · rw [h3 k hkid] at hk
      exact hw k r hk

/-- Removing an entry keeps the stamp invariant. -/
theorem erase_keeps_stamps (m : rwmap.RWMap (Room MovieInfo)) (id : Nat)
    (hm : ∀ (k : Nat) (r : Room MovieInfo), m.lookup k = some r →
      r.version = crc32.ChecksumIEEE r.Room.HashedPassword) :
    ∀ (k : Nat) (r : Room MovieInfo), (m.erase id).lookup k = some r →
      r.version = crc32.ChecksumIEEE r.Room.HashedPassword := by
  intro k r hk
  by_cases hkid : k = id
  · subst hkid
    simp at hk
  · rw [AList.lookup_erase_ne hkid] at hk
    exact hm k r hk

/-- Every call keeps the stamp invariant. -/
theorem step_keeps_stamps [Inhabited MovieInfo] (D : DB σ Conf) (w : World MovieInfo σ)
    (call : Call MovieInfo Conf)
    (hw : ∀ (k : Nat) (r : Room MovieInfo), w.roomCache.lookup k = some r →
      r.version = crc32.ChecksumIEEE r.Room.HashedPassword) :
    ∀ (k : Nat) (r : Room MovieInfo), (Call.step D w call).roomCache.lookup k = some r →
      r.version = crc32.ChecksumIEEE r.Room.HashedPassword := by
  cases call with
  | create now name password conf =>
    simp only [Call.step, CreateRoom]
    cases hc : (D.CreateRoom w.db name password conf).2 with
    | error err => exact hw
    | ok record => exact initRoom_keeps_stamps _ now record hw
  | load now record => exact initRoom_keeps_stamps w now record hw
  | getByID now id =>
    simp only [Call.step, GetRoomByID, rwmap.Load]
    cases hl : w.roomCache.lookup id with
    | some r0 => simpa using hw
    | none =>
      cases hg : (D.GetRoomByID w.db id).2 with
      | error err => simpa using hw
      | ok record =>
        simp only [Option.isSome_none, Bool.false_eq_true, if_false]
        exact initRoom_keeps_stamps _ now record hw
  | delete r0 =>
    simp only [Call.step, DeleteRoom, rwmap.Delete, close]
    exact erase_keeps_stamps w.roomCache r0.Room.ID hw
  | deleteByID id =>
    simp only [Call.step, DeleteRoomByID_cases]
    cases hl : w.roomCache.lookup id with
    | none => exact hw
    | some r0 => exact erase_keeps_stamps w.roomCache id hw

/-- Every sequence of calls keeps the stamp invariant. -/
theorem runCalls_keeps_stamps [Inhabited MovieInfo] (D : DB σ Conf)
    (calls : List (Call MovieInfo Conf)) :
    ∀ w : World MovieInfo σ,
      (∀ (k : Nat) (r : Room MovieInfo), w.roomCache.lookup k = some r →
        r.version = crc32.ChecksumIEEE r.Room.HashedPassword) →
      ∀ (k : Nat) (r : Room MovieInfo), (runCalls D w calls).roomCache.lookup k = some r →
        r.version = crc32.ChecksumIEEE r.Room.HashedPassword := by
  induction calls with
  | nil => intro w hw; exact hw
  | cons call calls ih =>
    intro w hw
    exact ih (Call.step D w call) (step_keeps_stamps D w call hw)

/-- C15: in every registry state reached from the empty registry by a sequence of
`CreateRoom`, `LoadRoom`, `GetRoomByID`, `DeleteRoom` and `DeleteRoomByID` calls, every
registered room carries `version` equal to the CRC-32 (IEEE) checksum of its own hashed
password. -/
theorem C15_registered_version_is_checksum [Inhabited MovieInfo] (D : DB σ Conf) (s : σ)
    (calls : List (Call MovieInfo Conf)) (k : Nat) (r : Room MovieInfo)
    (h : (runCalls D (World.initial s) calls).roomCache.lookup k = some r) :
    r.version = crc32.ChecksumIEEE r.Room.HashedPassword := by
  refine runCalls_keeps_stamps D calls (World.initial s) ?_ k r h
  intro k0 r0 h0
  simp [World.initial] at h0

/-- C17: `HasRoom(id)` is true, with persistence not consulted, when `id` is registered; when
it is not, the result is the answer of the persistence existence check, and false when that
check returns an error. -/
theorem C17_HasRoom_cases (D : DB σ Conf) (w : World MovieInfo σ) (id : Nat) :
    match w.roomCache.lookup id with
    | some _ => HasRoom D w id = (w, true)
    | none =>
      match (D.HasRoom w.db id).2 with
      | .ok answer => HasRoom D w id = ({ w with db := (D.HasRoom w.db id).1 }, answer)
      | .error _ => HasRoom D w id = ({ w with db := (D.HasRoom w.db id).1 }, false) := by
  cases h : w.roomCache.lookup id with
  | some r => simp [HasRoom, rwmap.Load, h]
  | none =>
    cases hg : (D.HasRoom w.db id).2 with
    | error err => simp [HasRoom, rwmap.Load, h, hg]
    | ok answer => simp [HasRoom, rwmap.Load, h, hg]

end op

namespace op

/-- Witness of C15: after `LoadRoom(record1)`, `GetRoomByID(2)` and `DeleteRoomByID(1)` on a
persistence state that holds both records, the room registered under 2 carries the checksum
of the password hash of `record2`. -/
theorem C15_registered_version_is_checksum_witness :
    (runCalls fixtures.recordDB (World.initial [fixtures.record1, fixtures.record2])
        [Call.load 0 fixtures.record1, Call.getByID 3 2, Call.deleteByID 1]).roomCache.lookup 2
        = some ({ Room := fixtures.record2
                  version := crc32.ChecksumIEEE fixtures.record2.HashedPassword
                  current := room.newCurrent 3 } : Room String)
      ∧ ({ Room := fixtures.record2
           version := crc32.ChecksumIEEE fixtures.record2.HashedPassword
           current := room.newCurrent 3 } : Room String).version
          = crc32.ChecksumIEEE
              ({ Room := fixtures.record2
                 version := crc32.ChecksumIEEE fixtures.record2.HashedPassword
                 current := room.newCurrent 3 } : Room String).Room.HashedPassword :=
  ⟨by rfl,
    C15_registered_version_is_checksum fixtures.recordDB
      [fixtures.record1, fixtures.record2]
      [Call.load 0 fixtures.record1, Call.getByID 3 2, Call.deleteByID 1] 2 _ (by rfl)⟩

end op

/-! ## Properties of the bootstrap loader -/

namespace bootstrap

variable {MovieInfo σ Conf : Type}

/-- The loop stops at a record whose identifier is registered and goes on behind a record
whose identifier is not. -/
theorem loadLoop_cons [Inhabited MovieInfo] (clock : Nat → time.Time) (record : model.Room)
    (rest : List model.Room) (i : Nat) (w : op.World MovieInfo σ) :
    loadLoop clock (record :: rest) i w
      = match w.roomCache.lookup record.ID with
        | some _ => (w, some "room already exists")
        | none => loadLoop clock rest (i + 1) (op.LoadRoom w (clock i) record).1 := by
  cases h : w.roomCache.lookup record.ID with
  | some existing =>
    simp [loadLoop, op.LoadRoom_hit w (clock i) record existing h]
  | none =>
    obtain ⟨h1, _⟩ := op.LoadRoom_miss w (clock i) record h
    simp [loadLoop, h1]

/-- What the loop does on every list of records: it ends without error exactly when the
identifiers are pairwise distinct and none was registered before; entries registered before
are kept, identifiers of no record are left alone, and after a run without error every
record's identifier is registered. -/
theorem loadLoop_spec [Inhabited MovieInfo] (clock : Nat → time.Time) (rs : List model.Room) :
    ∀ (i : Nat) (w : op.World MovieInfo σ),
      ((loadLoop clock rs i w).2 = none
          ↔ (rs.map (fun r => r.ID)).Nodup ∧ ∀ r ∈ rs, w.roomCache.lookup r.ID = none)
        ∧ (∀ (k : Nat) (x : op.Room MovieInfo), w.roomCache.lookup k = some x →
            (loadLoop clock rs i w).1.roomCache.lookup k = some x)
        ∧ ((loadLoop clock rs i w).2 = none →
            ∀ r ∈ rs, ((loadLoop clock rs i w).1.roomCache.lookup r.ID).isSome = true)
        ∧ (∀ k : Nat, (∀ r ∈ rs, r.ID ≠ k) →
            (loadLoop clock rs i w).1.roomCache.lookup k = w.roomCache.lookup k)
        ∧ (∀ err : op.GoError, (loadLoop clock rs i w).2 = some err →
            err = "room already exists")
        ∧ (loadLoop clock rs i w).1.db = w.db := by
  induction rs with
  | nil =>
    intro i w
    simp [loadLoop]
  | cons record rest ih =>
    intro i w
    rw [loadLoop_cons]
    cases h : w.roomCache.lookup record.ID with
    | some existing =>
      refine ⟨?_, ?_, ?_, ?_, ?_, ?_⟩
      · simp [h]
      · intro k x hk; exact hk
      · intro hn; simp at hn
      · intro k _; rfl
      · intro err he; simpa using he.symm
      · rfl
    | none =>
      obtain ⟨_, m2, m3, m4, _⟩ := op.LoadRoom_miss w (clock i) record h
      obtain ⟨i1, i2, i3, i4, i5, i6⟩ := ih (i + 1) (op.LoadRoom w (clock i) record).1
      have hlook : ∀ r : model.Room,
          ((op.LoadRoom w (clock i) record).1.roomCache.lookup r.ID = none
            ↔ r.ID ≠ record.ID ∧ w.roomCache.lookup r.ID = none) := by
        intro r
        by_cases hr : r.ID = record.ID
        · rw [hr, m2]; simp
        · rw [m3 r.ID hr]; simp [hr]
      refine ⟨?_, ?_, ?_, ?_, ?_, ?_⟩
      · simp only [i1, hlook, List.map_cons, List.nodup_cons, List.mem_map, List.mem_cons,
          forall_eq_or_imp, h, true_and]
        constructor
        · rintro ⟨hnd, hall⟩
          refine ⟨⟨?_, hnd⟩, fun r hr => (hall r hr).2⟩
          rintro ⟨r, hr, hid⟩
          exact (hall r hr).1 hid
        · rintro ⟨⟨hnot, hnd⟩, hall⟩
          refine ⟨hnd, fun r hr => ⟨?_, hall r hr⟩⟩
          intro hid
          exact hnot ⟨r, hr, hid⟩
      · intro k x hk
        apply i2
        by_cases hkid : k = record.ID
        · rw [hkid, h] at hk; cases hk
        · rw [m3 k hkid]; exact hk
      · intro hn r hr
        simp only [List.mem_cons] at hr
        rcases hr with hr | hr
        · rw [hr, i2 record.ID _ m2]; rfl
        · exact i3 hn r hr
      · intro k hk
        rw [i4 k (fun r hr => hk r (List.mem_cons_of_mem _ hr))]
        exact m3 k (fun hkid => hk record (List.mem_cons_self _ _) hkid.symm)
      · exact i5
      · rw [i6, m4]

/-- The loop stops at the first record whose `LoadRoom` fails: when the records before it
load without error and its identifier is registered by then, the result is the state after
those records and the error of that `LoadRoom`; no later record is loaded. -/
theorem loadLoop_stops [Inhabited MovieInfo] (clock : Nat → time.Time) (record : model.Room)
    (post : List model.Room) (pre : List model.Room) :
    ∀ (i : Nat) (w : op.World MovieInfo σ),
      (loadLoop clock pre i w).2 = none →
      ((loadLoop clock pre i w).1.roomCache.lookup record.ID).isSome = true →
      loadLoop clock (pre ++ record :: post) i w
        = ((loadLoop clock pre i w).1, some "room already exists") := by
  induction pre with
  | nil =>
    intro i w _ hreg
    simp only [loadLoop] at hreg
    rw [List.nil_append, loadLoop_cons]
    cases h : w.roomCache.lookup record.ID with
    | none => rw [h] at hreg; simp at hreg
    | some existing => simp [loadLoop]
  | cons p pre ih =>
    intro i w hok hreg
    rw [List.cons_append, loadLoop_cons]
    rw [loadLoop_cons] at hok hreg
    cases h : w.roomCache.lookup p.ID with
    | some existing => rw [h] at hok; simp at hok
    | none =>
      have hcons : loadLoop clock (p :: pre) i w
          = loadLoop clock pre (i + 1) (op.LoadRoom w (clock i) p).1 := by
        rw [loadLoop_cons, h]
      rw [h] at hok hreg
      rw [hcons]
      exact ih (i + 1) _ hok hreg

end bootstrap

namespace bootstrap

variable {MovieInfo σ Conf : Type}

/-- C18: `InitRoom` returns the error of the fetch when fetching the records fails.
Otherwise it loads the records in order and stops at the first `LoadRoom` that fails: when
the records before some record load and that record's identifier is registered by then, the
result is the state after those records with "room already exists", and identifiers of
later records are left as they were.  It returns a nil error exactly when every `LoadRoom`
succeeds, which is when the identifiers are pairwise distinct and none was registered before,
and then every record's identifier is registered.  With two records of identifier 1 before
`record2`, the error is returned and identifier 2 is not registered. -/
theorem C18_InitRoom_halts_on_first_error [Inhabited MovieInfo] (D : op.DB σ Conf)
    (clock : Nat → time.Time) (w : op.World MovieInfo σ) :
    (match (D.GetAllRooms w.db).2 with
      | .error err =>
        InitRoom D clock w = ({ w with db := (D.GetAllRooms w.db).1 }, some err)
      | .ok rs =>
        ((InitRoom D clock w).2 = none
            ↔ (rs.map (fun r => r.ID)).Nodup ∧ ∀ r ∈ rs, w.roomCache.lookup r.ID = none)
          ∧ ((InitRoom D clock w).2 = none →
              ∀ r ∈ rs, ((InitRoom D clock w).1.roomCache.lookup r.ID).isSome = true)
          ∧ (∀ (pre : List model.Room) (record : model.Room) (post : List model.Room),
              rs = pre ++ record :: post →
              (loadLoop clock pre 0
                ({ w with db := (D.GetAllRooms w.db).1 } : op.World MovieInfo σ)).2 = none →
              ((loadLoop clock pre 0
                ({ w with db := (D.GetAllRooms w.db).1 } : op.World MovieInfo σ)).1.roomCache.lookup
                  record.ID).isSome = true →
              InitRoom D clock w
                  = ((loadLoop clock pre 0
                      ({ w with db := (D.GetAllRooms w.db).1 } : op.World MovieInfo σ)).1,
                    some "room already exists")
                ∧ ∀ k : Nat, (∀ r ∈ pre, r.ID ≠ k) →
                    (InitRoom D clock w).1.roomCache.lookup k = w.roomCache.lookup k))
      ∧ ((InitRoom fixtures.recordDB (fun _ => 0)
            (op.World.initial [fixtures.record1, fixtures.record1b, fixtures.record2] :
              op.World String (List model.Room))).2 = some "room already exists"
          ∧ (InitRoom fixtures.recordDB (fun _ => 0)
              (op.World.initial [fixtures.record1, fixtures.record1b, fixtures.record2] :
                op.World String (List model.Room))).1.roomCache.lookup 2 = none) := by
  refine ⟨?_, by rfl, by rfl⟩
  cases hf : (D.GetAllRooms w.db).2 with
  | error err => simp [InitRoom, hf]
  | ok rs =>
    have hinit : InitRoom D clock w
        = loadLoop clock rs 0
            ({ w with db := (D.GetAllRooms w.db).1 } : op.World MovieInfo σ) := by
      simp [InitRoom, hf]
    obtain ⟨s1, _, s3, _, _, _⟩ := loadLoop_spec clock rs 0
      ({ w with db := (D.GetAllRooms w.db).1 } : op.World MovieInfo σ)
    refine ⟨?_, ?_, ?_⟩
    · rw [hinit]; exact s1
    · rw [hinit]; exact s3
    · intro pre record post hrs hok hreg
      have hstop := loadLoop_stops clock record post pre 0
        ({ w with db := (D.GetAllRooms w.db).1 } : op.World MovieInfo σ) hok hreg
      rw [hinit, hrs, hstop]
      refine ⟨rfl, ?_⟩
      intro k hk
      obtain ⟨_, _, _, p4, _, _⟩ := loadLoop_spec clock pre 0
        ({ w with db := (D.GetAllRooms w.db).1 } : op.World MovieInfo σ)
      exact p4 k hk

end bootstrap

/-! ## Properties of runs of calls on a `Current` -/

namespace room

variable {MovieInfo : Type}

/-- The elapsed seconds from an anchor to a later instant are not negative. -/
theorem Seconds_Since_nonneg (anchor t : time.Time) (h : anchor ≤ t) :
    0 ≤ time.Seconds (time.Since t anchor) := by
  rw [time.Seconds_eq_div]
  have h1 : (0 : ℚ) ≤ ((time.Since t anchor : Int) : ℚ) := by
    have : (0 : Int) ≤ time.Since t anchor := Int.sub_nonneg_of_le h
    exact_mod_cast this
  positivity

/-- One call with arguments that are not negative, performed no earlier than the anchor, keeps
`Seek` and `Rate` not negative and the anchor no later than the instant of the call. -/
theorem Op.apply_keeps_nonneg (c : Current MovieInfo) (t : time.Time) (op : Op MovieInfo)
    (hseek : 0 ≤ c.status.Seek) (hrate : 0 ≤ c.status.Rate)
    (hanchor : c.status.lastUpdateTime ≤ t) (ht : t ≤ op.instant) (hargs : op.argsNonneg) :
    0 ≤ (Op.apply c op).status.Seek ∧ 0 ≤ (Op.apply c op).status.Rate
      ∧ (Op.apply c op).status.lastUpdateTime ≤ op.instant := by
  cases op with
  | setMovie t1 movie =>
    simp only [Op.instant] at ht
    simp only [Op.apply, Current.SetMovie, Op.instant]
    exact ⟨le_refl _, hrate, le_trans hanchor ht⟩
  | setStatus t1 playing seek rate timeDiff =>
    obtain ⟨h1, h2, h3⟩ := hargs
    cases playing
    · simp [Op.apply, Current.SetStatus, Op.instant, h1, h2]
    · simp only [Op.apply, Current.SetStatus, Op.instant, if_true, le_refl, and_true]
      exact ⟨by positivity, h2⟩
  | setSeekRate t1 seek rate timeDiff =>
    obtain ⟨h1, h2, h3⟩ := hargs
    cases hp : c.status.Playing
    · simp [Op.apply, Current.SetSeekRate, Op.instant, hp, h1, h2]
    · simp only [Op.apply, Current.SetSeekRate, Op.instant, hp, if_true, le_refl, and_true]
      exact ⟨by positivity, h2⟩
  | status t1 =>
    simp only [Op.instant] at ht
    have hel := Seconds_Since_nonneg c.status.lastUpdateTime t1 (le_trans hanchor ht)
    cases hp : c.status.Playing
    · simp [Op.apply, Current.StatusAt, Current.Status, Current.updateSeek, Op.instant, hp,
        hseek, hrate]
    · simp only [Op.apply, Current.StatusAt, Current.Status, Current.updateSeek, Op.instant, hp,
        if_true, le_refl, and_true]
      exact ⟨by positivity, hrate⟩

/-- A run of calls at non-decreasing instants with arguments that are not negative keeps
`Seek` not negative. -/
theorem runOps_keeps_nonneg (ops : List (Op MovieInfo)) :
    ∀ (c : Current MovieInfo) (t : time.Time),
      0 ≤ c.status.Seek → 0 ≤ c.status.Rate → c.status.lastUpdateTime ≤ t →
      List.Chain (fun a b : time.Time => a ≤ b) t (ops.map Op.instant) →
      (∀ op ∈ ops, op.argsNonneg) →
      0 ≤ (runOps c ops).status.Seek := by
  induction ops with
  | nil => intro c t hs _ _ _ _; exact hs
  | cons op ops ih =>
    intro c t hs hr ha hchain hargs
    simp only [List.map_cons, List.chain_cons] at hchain
    obtain ⟨h1, h2, h3⟩ := Op.apply_keeps_nonneg c t op hs hr ha hchain.1
      (hargs op (List.mem_cons_self _ _))
    exact ih (Op.apply c op) op.instant h1 h2 h3 hchain.2
      (fun o ho => hargs o (List.mem_cons_of_mem _ ho))

/-- C16, the claim as stated fails: from a new `Current` created at the instant 0, the single
call `SetStatus(false, -5, 1, 0)` leaves `Seek = -5`; `SetStatus(true, 0, -1, 0)` followed by
a read one second later leaves `Seek = -1`; and `SetStatus(true, 0, 1, -1)` leaves
`Seek = -1`. -/
theorem C16_seek_negative_counterexample :
    (List.Chain (fun a b : time.Time => a ≤ b) 0
          (([Op.setStatus 0 false (-5) 1 0] : List (Op String)).map Op.instant)
        ∧ (runOps (newCurrent 0 : Current String) [Op.setStatus 0 false (-5) 1 0]).status.Seek
            = -5)
      ∧ (List.Chain (fun a b : time.Time => a ≤ b) 0
            (([Op.setStatus 0 true 0 (-1) 0, Op.status 1000000000] :
              List (Op String)).map Op.instant)
          ∧ (runOps (newCurrent 0 : Current String)
              [Op.setStatus 0 true 0 (-1) 0, Op.status 1000000000]).status.Seek = -1)
      ∧ (List.Chain (fun a b : time.Time => a ≤ b) 0
            (([Op.setStatus 0 true 0 1 (-1)] : List (Op String)).map Op.instant)
          ∧ (runOps (newCurrent 0 : Current String)
              [Op.setStatus 0 true 0 1 (-1)]).status.Seek = -1) := by
  refine ⟨⟨by simp [Op.instant], ?_⟩, ⟨by simp [Op.instant], ?_⟩, ⟨by simp [Op.instant], ?_⟩⟩
  · simp [runOps, Op.apply, Current.SetStatus]
  · simp [runOps, Op.apply, Current.SetStatus, Current.StatusAt, Current.Status,
      Current.updateSeek, time.Seconds_eq_div, time.Since]
  · simp [runOps, Op.apply, Current.SetStatus]

/-- C16, amended: for every `Current` reached from a newly created one by a sequence of
`SetMovie`, `SetStatus`, `SetSeekRate` and `Status()` calls at non-decreasing instants, in
which every `SetStatus` and `SetSeekRate` is given `seek`, `rate` and `timeDiff` that are not
negative, the stored `Seek` is not negative. -/
theorem C16_seek_nonneg_of_nonneg_args [Inhabited MovieInfo] (t0 : time.Time)
    (ops : List (Op MovieInfo))
    (hmono : List.Chain (fun a b : time.Time => a ≤ b) t0 (ops.map Op.instant))
    (hargs : ∀ op ∈ ops, op.argsNonneg) :
    0 ≤ (runOps (newCurrent t0 : Current MovieInfo) ops).status.Seek := by
  refine runOps_keeps_nonneg ops (newCurrent t0) t0 ?_ ?_ ?_ hmono hargs
  · simp [newCurrent, newStatus]
  · simp [newCurrent, newStatus]
  · simp [newCurrent, newStatus]

/-- Witness of C16: play from 10 at rate 2, read, change the movie, read, then seek to 3. -/
theorem C16_seek_nonneg_of_nonneg_args_witness :
    List.Chain (fun a b : time.Time => a ≤ b) 0
        (([Op.setStatus 1000000000 true 10 2 (1 / 2), Op.status 2000000000,
            Op.setMovie 3000000000 "b", Op.status 4000000000,
            Op.setSeekRate 5000000000 3 1 0] : List (Op String)).map Op.instant)
      ∧ (∀ op ∈ ([Op.setStatus 1000000000 true 10 2 (1 / 2), Op.status 2000000000,
            Op.setMovie 3000000000 "b", Op.status 4000000000,
            Op.setSeekRate 5000000000 3 1 0] : List (Op String)), op.argsNonneg)
      ∧ 0 ≤ (runOps (newCurrent 0 : Current String)
            [Op.setStatus 1000000000 true 10 2 (1 / 2), Op.status 2000000000,
              Op.setMovie 3000000000 "b", Op.status 4000000000,
              Op.setSeekRate 5000000000 3 1 0]).status.Seek :=
  ⟨by simp [Op.instant], by simp [Op.argsNonneg],
    C16_seek_nonneg_of_nonneg_args 0 _ (by simp [Op.instant]) (by simp [Op.argsNonneg])⟩

end room

namespace room

namespace Current

variable {MovieInfo : Type}

/-- Two `Status()` calls with their four clock readings: while playing, the second call
returns the position advanced by the time from the anchor to the first reading of the first
call and from the second reading of the first call to the first reading of the second. -/
theorem Status_twice_playing (c : Current MovieInfo) (a1 a2 b1 b2 : time.Time)
    (hp : c.status.Playing = true) :
    (Status (Status c a1 a2).1 b1 b2).2.Seek
      = c.status.Seek
        + ((((a1 - c.status.lastUpdateTime : Int) : ℚ) + ((b1 - a2 : Int) : ℚ)) / 1000000000)
          * c.status.Rate := by
  simp only [Status, updateSeek, hp, if_true, time.Seconds_eq_div, time.Since]
  ring

/-- A `Status()` call, whatever its two clock readings are, changes neither `Rate`, nor
`Playing`, nor the movie, returns the status it stores, and anchors at its second reading. -/
theorem Status_frame (c : Current MovieInfo) (since now : time.Time) :
    (Status c since now).1.status.Rate = c.status.Rate
      ∧ (Status c since now).1.status.Playing = c.status.Playing
      ∧ (Status c since now).1.movie = c.movie
      ∧ (Status c since now).1.status = (Status c since now).2
      ∧ (Status c since now).1.status.lastUpdateTime = now := by
  cases hp : c.status.Playing <;> simp [Status, updateSeek, hp]

/-- Reads whose two clock readings coincide compose: a read at `t1` followed by a read at
`t2` returns the same snapshot and leaves the same stored state as a single read at `t2`. -/
theorem StatusAt_compose (c : Current MovieInfo) (t1 t2 : time.Time) :
    StatusAt (StatusAt c t1).1 t2 = StatusAt c t2 := by
  cases hp : c.status.Playing
  · simp [StatusAt, Status, updateSeek, hp]
  · simp only [StatusAt, Status, updateSeek, hp, if_true, time.Seconds_eq_div, time.Since,
      Prod.mk.injEq, Current.mk.injEq, Status.mk.injEq, true_and, and_true, and_self]
    push_cast
    ring

/-- Two `Status()` calls against one: while playing, a read with the clock readings `a1` and
`a2` followed by a read with the readings `b1` and `b2` returns the position of the single
read with the readings `b1` and `b2`, less the time between `a1` and `a2` at the rate. -/
theorem Status_twice_vs_once (c : Current MovieInfo) (a1 a2 b1 b2 : time.Time)
    (hp : c.status.Playing = true) :
    (Status (Status c a1 a2).1 b1 b2).2.Seek
      = (Status c b1 b2).2.Seek - (((a2 - a1 : Int) : ℚ) / 1000000000) * c.status.Rate := by
  simp only [Status, updateSeek, hp, if_true, time.Seconds_eq_div, time.Since]
  push_cast
  ring

/-- C20, the code at the failing input: playing at rate 2 from position 10 anchored at 0, a
`Status()` call whose `time.Since` reads the clock at 1 s and whose `time.Now()` reads it at
1.001 s, followed by a `Status()` call at 3 s, returns `Seek = 15.998` at 3 s, while a single
`Status()` call at 3 s returns `Seek = 16`: the read has lost the 1 ms between its two clock
readings, 0.002 of position at rate 2. -/
theorem C20_read_loses_time_between_clock_readings :
    (Status (Status (⟨"a", ⟨10, 2, true, 0⟩⟩ : Current String) 1000000000 1001000000).1
          3000000000 3000000000).2.Seek = 7999 / 500
      ∧ (Status (⟨"a", ⟨10, 2, true, 0⟩⟩ : Current String) 3000000000 3000000000).2.Seek = 16
      ∧ (Status (Status (⟨"a", ⟨10, 2, true, 0⟩⟩ : Current String) 1000000000 1001000000).1
            3000000000 3000000000).2
          ≠ (Status (⟨"a", ⟨10, 2, true, 0⟩⟩ : Current String) 3000000000 3000000000).2 := by
  have h1 : (Status (Status (⟨"a", ⟨10, 2, true, 0⟩⟩ : Current String)
      1000000000 1001000000).1 3000000000 3000000000).2.Seek = 7999 / 500 := by
    rw [Status_twice_playing _ _ _ _ _ rfl]
    norm_num
  have h2 : (Status (⟨"a", ⟨10, 2, true, 0⟩⟩ : Current String)
      3000000000 3000000000).2.Seek = 16 := by
    simp only [Status, updateSeek, if_true, time.Seconds_eq_div, time.Since]
    norm_num
  refine ⟨h1, h2, ?_⟩
  intro heq
  have hs := congrArg room.Status.Seek heq
  rw [h1, h2] at hs
  norm_num at hs

end Current

end room

/-! ## Properties of the version check -/

namespace version

variable {γ : Type}

end version

namespace version

end version
